import Mathlib

/-!
Verification of the field-options resolution core (`src/core/src/options/field.rs`).

The syntax-tree entities (`syn::Ident`, `syn::Ty`, `syn::Path`,
`syn::MetaItem`) are external collaborators consumed as opaque structured
input, so they are embedded as small concrete carriers.  The `FromMetaItem`
trait implementations and the `Container` type live outside the provided
source tree; where a claim depends on them they are modelled from the spec
and marked as such in their doc comments.
-/

namespace Darling

/-- An identifier (`syn::Ident`): an opaque name carried as a string. -/
structure Ident where
  name : String
deriving DecidableEq, Repr

/-- A type descriptor (`syn::Ty`): opaque, carried through unchanged. -/
structure Ty where
  desc : String
deriving DecidableEq, Repr

/-- A path-like reference (`syn::Path`): opaque, carried as a string. -/
structure Path where
  segments : String
deriving DecidableEq, Repr

/-- Modelled from the spec: a directive's value payload is "one of: string,
boolean, path-like reference, or nested list"; a bare directive (no value)
is the `word` form.  None of the verified operations inspect the nested
payload, so it is carried opaquely as a list of strings. -/
inductive MetaValue where
  | word : MetaValue
  | str (s : String) : MetaValue
  | boolean (b : Bool) : MetaValue
  | path (p : Path) : MetaValue
  | nestedList (items : List String) : MetaValue
deriving DecidableEq, Repr

/-- Modelled from the spec: one directive entry (`syn::MetaItem`),
a name plus a value payload. -/
structure MetaItem where
  name : String
  value : MetaValue
deriving DecidableEq, Repr

/-- The error type: `Error::unknown_field(name)` for a directive name outside
the fixed vocabulary, and a value-shape mismatch for a conversion failure. -/
inductive Error where
  | unknownField (name : String) : Error
  | valueShapeMismatch : Error
deriving DecidableEq, Repr

/-- `options::DefaultExpression`: how a field's default value is produced. -/
inductive DefaultExpression where
  | Explicit (path : Path) : DefaultExpression
  | Inherit : DefaultExpression
  | Trait : DefaultExpression
deriving DecidableEq, Repr

/-- Modelled from the spec: a `Container` owns a rename rule ("pure function:
name → name", applied via `rename_rule.apply_to_field`) and an optional
default policy whose content is opaque to the field — only its presence
matters, so it is carried as `Option Unit`. -/
structure Container where
  rename_rule : Ident → String
  default : Option Unit

/-- The resolved options of one field (`struct Field`).  The Rust field
`with` is spelled `with_` because `with` is reserved in Lean. -/
structure Field where
  target_name : Ident
  attr_name : Option String
  ty : Ty
  default : Option DefaultExpression
  with_ : Option Path
  skip : Bool
deriving DecidableEq, Repr

/-- `lazy_static! FROM_META_ITEM`: the default path for extracting data from
a meta item, used when no `with` directive is given. -/
def FROM_META_ITEM : Path :=
  ⟨"::darling::FromMetaItem::from_meta_item"⟩

namespace codegen

/-- `codegen::DefaultExpression`: the generator-facing view of a default,
where the `Inherit` variant carries the target field's name. -/
inductive DefaultExpression where
  | Explicit (path : Path) : DefaultExpression
  | Inherit (ident : Ident) : DefaultExpression
  | Trait : DefaultExpression
deriving DecidableEq, Repr

/-- `codegen::Field`: the immutable view of a resolved field handed to the
downstream generator. -/
structure Field where
  name_in_struct : Ident
  name_in_attr : String
  ty : Ty
  default_expression : Option DefaultExpression
  with_path : Path
  skip : Bool
deriving DecidableEq, Repr

end codegen

/-- `Field::as_codegen_default`: project the stored default into the codegen
variant, attaching the field's own name in the `Inherit` case. -/
def Field.as_codegen_default (self : Field) : Option codegen.DefaultExpression :=
  self.default.map fun expr =>
    match expr with
    | DefaultExpression.Explicit path => codegen.DefaultExpression.Explicit path
    | DefaultExpression.Inherit => codegen.DefaultExpression.Inherit self.target_name
    | DefaultExpression.Trait => codegen.DefaultExpression.Trait

/-- `Field::as_codegen_field`: generate a view into this field for code
generation. -/
def Field.as_codegen_field (self : Field) : codegen.Field :=
  { name_in_struct := self.target_name
    name_in_attr := self.attr_name.getD self.target_name.name
    ty := self.ty
    default_expression := self.as_codegen_default
    with_path := self.with_.getD FROM_META_ITEM
    skip := self.skip }

/-- State-passing form of `as_codegen_field`: the Rust method takes `&self`,
so the call returns the view together with the (unmodified) receiver. -/
def Field.as_codegen_field_call (self : Field) : codegen.Field × Field :=
  (self.as_codegen_field, self)

/-- `Field::new`: a field fresh from raw schema input, all options unset. -/
def Field.new (target_name : Ident) (ty : Ty) : Field :=
  { target_name := target_name
    ty := ty
    attr_name := none
    default := none
    with_ := none
    skip := false }

/-- `Field::with_inherited`: apply inherited settings from the container,
after parsing, deferring to explicit field-level settings. -/
def Field.with_inherited (self : Field) (parent : Container) : Except Error Field :=
  let self :=
    if self.attr_name.isNone then
      { self with attr_name := some (parent.rename_rule self.target_name) }
    else self
  let self :=
    if self.default.isNone && parent.default.isSome then
      { self with default := some DefaultExpression.Inherit }
    else self
  Except.ok self

/-- The `FromMetaItem` trait dictionary: the four value conversions invoked
by `parse_nested`, one per assignment target type (`Option<String>`,
`Option<DefaultExpression>`, `syn::Path`, `bool`).  These implementations
live outside the provided source, so `parse_nested` is parameterised over
them, mirroring Rust's trait dispatch. -/
structure FMI where
  optString : MetaItem → Except Error (Option String)
  optDefault : MetaItem → Except Error (Option DefaultExpression)
  pathConv : MetaItem → Except Error Path
  boolConv : MetaItem → Except Error Bool

/-- `ParseAttribute::parse_nested` for `Field`: dispatch on the directive
name against the fixed vocabulary; an unrecognised name fails with
`unknown_field`.  The method takes `&mut self`, so the call returns the
outcome together with the post-state of the receiver; on a conversion
failure the `?` operator propagates the error leaving the receiver as it
was. -/
def Field.parse_nested (fmi : FMI) (self : Field) (mi : MetaItem) :
    Except Error Unit × Field :=
  match mi.name with
  | "rename" =>
    match fmi.optString mi with
    | Except.ok v => (Except.ok (), { self with attr_name := v })
    | Except.error e => (Except.error e, self)
  | "default" =>
    match fmi.optDefault mi with
    | Except.ok v => (Except.ok (), { self with default := v })
    | Except.error e => (Except.error e, self)
  | "with" =>
    match fmi.pathConv mi with
    | Except.ok v => (Except.ok (), { self with with_ := some v })
    | Except.error e => (Except.error e, self)
  | "skip" =>
    match fmi.boolConv mi with
    | Except.ok v => (Except.ok (), { self with skip := v })
    | Except.error e => (Except.error e, self)
  | n => (Except.error (Error.unknownField n), self)

/-- Modelled from the spec: `parse_attributes` (the `ParseAttribute` driver,
outside the provided source) consumes the ordered directive list, dispatching
each entry to `parse_nested`, and stops at the first error (fail-fast, no
partial recovery). -/
def Field.parse_attributes (fmi : FMI) (self : Field) :
    List MetaItem → Except Error Field
  | [] => Except.ok self
  | mi :: rest =>
    match self.parse_nested fmi mi with
    | (Except.ok _, self') => self'.parse_attributes fmi rest
    | (Except.error e, _) => Except.error e

/-- Modelled from the spec: raw schema input for one field — a (possibly
absent, e.g. tuple-struct) identifier, a type descriptor, and the ordered
directive list. -/
structure SynField where
  ident : Option Ident
  ty : Ty
  attrs : List MetaItem

/-- `Field::from_field`: construct and resolve a field from raw input.
`f.ident.unwrap()` panics when the identifier is absent; the panic is
embedded as the outer `none`. -/
def Field.from_field (fmi : FMI) (f : SynField) (parent : Option Container) :
    Option (Except Error Field) :=
  match f.ident with
  | none => none
  | some target_name =>
    some
      (match (Field.new target_name f.ty).parse_attributes fmi f.attrs with
       | Except.ok base =>
         match parent with
         | some container => base.with_inherited container
         | none => Except.ok base
       | Except.error e => Except.error e)

/-- Modelled from the spec: a concrete `FromMetaItem` dictionary for running
the pipeline on concrete inputs.  A `rename` value must be a string; a
`default` value is either a bare word (the type's natural default, `Trait`)
or a path/string naming a resolver (`Explicit`) — the directive never
produces `Inherit`, which the spec reserves for the merge step; a `with`
value must be a path-like reference; a `skip` value must be a boolean.
Shape mismatches fail with `ValueShapeMismatch`. -/
def specFMI : FMI :=
  { optString := fun mi =>
      match mi.value with
      | MetaValue.str s => Except.ok (some s)
      | _ => Except.error Error.valueShapeMismatch
    optDefault := fun mi =>
      match mi.value with
      | MetaValue.word => Except.ok (some DefaultExpression.Trait)
      | MetaValue.path p => Except.ok (some (DefaultExpression.Explicit p))
      | MetaValue.str s => Except.ok (some (DefaultExpression.Explicit ⟨s⟩))
      | _ => Except.error Error.valueShapeMismatch
    pathConv := fun mi =>
      match mi.value with
      | MetaValue.path p => Except.ok p
      | MetaValue.str s => Except.ok ⟨s⟩
      | _ => Except.error Error.valueShapeMismatch
    boolConv := fun mi =>
      match mi.value with
      | MetaValue.boolean b => Except.ok b
      | _ => Except.error Error.valueShapeMismatch }

/-- Modelled from the spec (for exhibiting claim C10 concretely): a
`FromMetaItem` dictionary whose optional-target conversions succeed with
the absent value. -/
def absentFMI : FMI :=
  { optString := fun _ => Except.ok none
    optDefault := fun _ => Except.ok none
    pathConv := fun _ => Except.ok ⟨"custom::parse"⟩
    boolConv := fun _ => Except.ok false }

/-- Reference definition of the projected view, written from the spec's
words (§4.3): name_in_struct is the schema-side name; name_in_attr is the
resolved external name, falling back to the stringified target name;
the type descriptor is carried unchanged; the default-expression view
translates `Inherit` into a reference to the target field's name,
`Explicit` into the stored path, `Trait` into a bare marker, absent into
absent; the parser reference is `with` if set, else the fixed well-known
default; the skip flag is carried through. -/
def specCodegenView (fld : Field) : codegen.Field :=
  { name_in_struct := fld.target_name
    name_in_attr :=
      match fld.attr_name with
      | some v => v
      | none => fld.target_name.name
    ty := fld.ty
    default_expression :=
      match fld.default with
      | some (DefaultExpression.Explicit p) => some (codegen.DefaultExpression.Explicit p)
      | some DefaultExpression.Inherit => some (codegen.DefaultExpression.Inherit fld.target_name)
      | some DefaultExpression.Trait => some codegen.DefaultExpression.Trait
      | none => none
    with_path :=
      match fld.with_ with
      | some p => p
      | none => FROM_META_ITEM
    skip := fld.skip }

/-- Normal form of `with_inherited`: it always returns `Ok`, updating
`attr_name` only when it was unset and `default` only when it was unset
and the parent had a default policy. -/
theorem with_inherited_ok (fld : Field) (c : Container) :
    fld.with_inherited c = Except.ok
      { fld with
        attr_name :=
          if fld.attr_name.isNone then some (c.rename_rule fld.target_name)
          else fld.attr_name
        default :=
          if fld.default.isNone && c.default.isSome then some DefaultExpression.Inherit
          else fld.default } := by
  obtain ⟨tn, an, ty, df, w, sk⟩ := fld
  cases an <;> cases df <;> cases hcd : c.default <;>
    simp [Field.with_inherited, hcd]

/-- C1: a field whose `attr_name` was set by an explicit `rename` directive
keeps that exact value through `with_inherited`; the container's rename
rule is never applied to it. -/
theorem with_inherited_keeps_explicit_rename
    (fld : Field) (c : Container) (v : String)
    (h : fld.attr_name = some v) (g : Field)
    (hg : fld.with_inherited c = Except.ok g) :
    g.attr_name = some v := by
  rw [with_inherited_ok] at hg
  cases hg
  simp [h]

/-- Witness for C1: the concrete field `count` renamed to `cnt`, merged
with a container whose rename rule appends a suffix, keeps `cnt`. -/
theorem with_inherited_keeps_explicit_rename_witness :
    (Field.mk ⟨"count"⟩ (some "cnt") ⟨"u32"⟩ (some DefaultExpression.Inherit) none false).attr_name
      = some "cnt" :=
  with_inherited_keeps_explicit_rename
    (Field.mk ⟨"count"⟩ (some "cnt") ⟨"u32"⟩ none none false)
    ⟨fun i => i.name ++ "_renamed", some ()⟩ "cnt" rfl
    (Field.mk ⟨"count"⟩ (some "cnt") ⟨"u32"⟩ (some DefaultExpression.Inherit) none false) rfl

/-- C2: merging sets an unset `default` to `Inherit` exactly when the
container declares a default policy (and leaves it `none` otherwise), and
never overwrites a `default` the field set itself. -/
theorem with_inherited_default_merge
    (fld : Field) (c : Container) (g : Field)
    (hg : fld.with_inherited c = Except.ok g) :
    (fld.default = none →
      g.default = if c.default.isSome then some DefaultExpression.Inherit else none)
    ∧ (∀ d, fld.default = some d → g.default = some d) := by
  rw [with_inherited_ok] at hg
  cases hg
  constructor
  · intro h
    cases hcd : c.default <;> simp [h, hcd]
  · intro d h
    simp [h]

/-- Witness for C2: a field with no `default` directive merged with a
container that has a default policy resolves to `Inherit`. -/
theorem with_inherited_default_merge_witness :
    (Field.mk ⟨"count"⟩ (some "count") ⟨"u32"⟩ (some DefaultExpression.Inherit) none false).default
      = if (Option.some ()).isSome then some DefaultExpression.Inherit else none :=
  (with_inherited_default_merge
    (Field.mk ⟨"count"⟩ none ⟨"u32"⟩ none none false)
    ⟨fun i => i.name, some ()⟩
    (Field.mk ⟨"count"⟩ (some "count") ⟨"u32"⟩ (some DefaultExpression.Inherit) none false)
    rfl).1 rfl

/-- C3: a field with no explicit `rename` gets its `attr_name` by applying
the container's rename rule to `target_name`. -/
theorem with_inherited_applies_rename_rule
    (fld : Field) (c : Container)
    (h : fld.attr_name = none) (g : Field)
    (hg : fld.with_inherited c = Except.ok g) :
    g.attr_name = some (c.rename_rule fld.target_name) := by
  rw [with_inherited_ok] at hg
  cases hg
  simp [h]

/-- Witness for C3: a field `count` with no rename, merged with a container
whose rule appends a suffix, resolves to the rule's output. -/
theorem with_inherited_applies_rename_rule_witness :
    (Field.mk ⟨"count"⟩ (some "count_r") ⟨"u32"⟩ none none false).attr_name
      = some ((fun i : Ident => i.name ++ "_r") ⟨"count"⟩) :=
  with_inherited_applies_rename_rule
    (Field.mk ⟨"count"⟩ none ⟨"u32"⟩ none none false)
    ⟨fun i => i.name ++ "_r", none⟩ rfl
    (Field.mk ⟨"count"⟩ (some "count_r") ⟨"u32"⟩ none none false) rfl

/-- C7: `with_inherited` always succeeds and mutates at most `attr_name`
and `default`: `target_name`, `ty`, `with` and `skip` come back unchanged. -/
theorem with_inherited_frame (fld : Field) (c : Container) :
    ∃ g, fld.with_inherited c = Except.ok g
      ∧ g.target_name = fld.target_name
      ∧ g.ty = fld.ty
      ∧ g.with_ = fld.with_
      ∧ g.skip = fld.skip := by
  refine ⟨_, with_inherited_ok fld c, rfl, rfl, rfl, rfl⟩

/-- C4: a directive whose name is outside the fixed vocabulary makes
`parse_nested` fail with `unknown_field` carrying that name, leaving every
field setting unchanged. -/
theorem parse_nested_unknown_directive
    (fmi : FMI) (fld : Field) (mi : MetaItem)
    (h : mi.name ≠ "rename" ∧ mi.name ≠ "default" ∧ mi.name ≠ "with" ∧ mi.name ≠ "skip") :
    fld.parse_nested fmi mi = (Except.error (Error.unknownField mi.name), fld) := by
  obtain ⟨h1, h2, h3, h4⟩ := h
  unfold Field.parse_nested
  split <;> simp_all

/-- Witness for C4: the directive `frobnicate` fails with
`unknown_field "frobnicate"` and the field is returned untouched. -/
theorem parse_nested_unknown_directive_witness :
    (Field.new ⟨"x"⟩ ⟨"bool"⟩).parse_nested specFMI ⟨"frobnicate", MetaValue.boolean true⟩
      = (Except.error (Error.unknownField "frobnicate"), Field.new ⟨"x"⟩ ⟨"bool"⟩) :=
  parse_nested_unknown_directive specFMI (Field.new ⟨"x"⟩ ⟨"bool"⟩)
    ⟨"frobnicate", MetaValue.boolean true⟩
    ⟨by decide, by decide, by decide, by decide⟩

/-- C5: the source projection `as_codegen_field` coincides with the
reference view written from the spec's words, component by component. -/
theorem as_codegen_field_matches_spec_view (fld : Field) :
    fld.as_codegen_field = specCodegenView fld := by
  obtain ⟨tn, an, ty, df, w, sk⟩ := fld
  cases an <;> cases w <;>
    rcases df with _ | (p | _ | _) <;>
      simp [Field.as_codegen_field, Field.as_codegen_default, specCodegenView]

/-- C8: computing the codegen view leaves the field unchanged, and
computing it again on that unchanged field yields the identical view:
`as_codegen_field` is a pure, referentially transparent projection. -/
theorem as_codegen_field_pure (fld : Field) :
    fld.as_codegen_field_call.2 = fld
    ∧ fld.as_codegen_field_call.2.as_codegen_field_call.1 = fld.as_codegen_field_call.1 :=
  ⟨rfl, rfl⟩

/-- C9: `from_field` unwraps the raw field's optional identifier, so the
call panics exactly when the raw field is unnamed; a named field never
panics (it returns a result, ok or error). -/
theorem from_field_panics_iff_unnamed
    (fmi : FMI) (f : SynField) (parent : Option Container) :
    Field.from_field fmi f parent = none ↔ f.ident = none := by
  cases h : f.ident <;> simp [Field.from_field, h]

/-- C10: under the direct optional assignment in `parse_nested`, a `rename`
(resp. `default`) directive whose conversion succeeds with the absent value
leaves `attr_name` (resp. `default`) unset, while a successful `with`
directive always leaves `with` set. -/
theorem parse_nested_optional_assignment
    (fmi : FMI) (fld : Field) (mi : MetaItem) :
    (mi.name = "rename" → fmi.optString mi = Except.ok none →
      fld.parse_nested fmi mi = (Except.ok (), { fld with attr_name := none }))
    ∧ (mi.name = "default" → fmi.optDefault mi = Except.ok none →
      fld.parse_nested fmi mi = (Except.ok (), { fld with default := none }))
    ∧ (∀ p, mi.name = "with" → fmi.pathConv mi = Except.ok p →
      fld.parse_nested fmi mi = (Except.ok (), { fld with with_ := some p })) := by
  refine ⟨fun hn hc => ?_, fun hn hc => ?_, fun p hn hc => ?_⟩ <;>
    obtain ⟨n, v⟩ := mi <;> subst hn <;> simp [Field.parse_nested, hc]

/-- Witness for C10: with a conversion dictionary whose optional targets
convert to the absent value, a `rename` directive leaves a previously set
`attr_name` unset. -/
theorem parse_nested_optional_assignment_witness :
    (Field.mk ⟨"x"⟩ (some "old") ⟨"T"⟩ none none false).parse_nested absentFMI
        ⟨"rename", MetaValue.word⟩
      = (Except.ok (), { Field.mk ⟨"x"⟩ (some "old") ⟨"T"⟩ none none false with
          attr_name := none }) :=
  (parse_nested_optional_assignment absentFMI
    (Field.mk ⟨"x"⟩ (some "old") ⟨"T"⟩ none none false)
    ⟨"rename", MetaValue.word⟩).1 rfl rfl

/-- The spec-modelled `default` directive conversion never produces the
`Inherit` variant: that variant is reserved for the merge step. -/
theorem specFMI_optDefault_no_inherit (mi : MetaItem) (v : Option DefaultExpression)
    (h : specFMI.optDefault mi = Except.ok v) :
    v ≠ some DefaultExpression.Inherit := by
  obtain ⟨n, val⟩ := mi
  cases val <;> simp [specFMI] at h <;> simp [← h]

/-- A successful `parse_nested` step never introduces the `Inherit` default
variant. -/
theorem parse_nested_preserves_no_inherit
    (fld : Field) (mi : MetaItem) (u : Unit) (fld' : Field)
    (h : fld.parse_nested specFMI mi = (Except.ok u, fld'))
    (hf : fld.default ≠ some DefaultExpression.Inherit) :
    fld'.default ≠ some DefaultExpression.Inherit := by
  unfold Field.parse_nested at h
  repeat' split at h
  all_goals injection h with h1 h2
  all_goals subst h2
  all_goals
    first
    | exact specFMI_optDefault_no_inherit mi _ (by assumption)
    | simpa using hf

/-- A successful `parse_attributes` pass never introduces the `Inherit`
default variant. -/
theorem parse_attributes_preserves_no_inherit
    (attrs : List MetaItem) (fld fld' : Field)
    (h : fld.parse_attributes specFMI attrs = Except.ok fld')
    (hf : fld.default ≠ some DefaultExpression.Inherit) :
    fld'.default ≠ some DefaultExpression.Inherit := by
  induction attrs generalizing fld with
  | nil =>
    unfold Field.parse_attributes at h
    cases h
    exact hf
  | cons mi rest ih =>
    unfold Field.parse_attributes at h
    split at h
    · exact ih _ h (parse_nested_preserves_no_inherit fld mi _ _ (by assumption) hf)
    · cases h

/-- If the merge produced an `Inherit` default that was not already there,
the container must have had a default policy. -/
theorem with_inherited_inherit_source
    (fld : Field) (c : Container) (g : Field)
    (hg : fld.with_inherited c = Except.ok g)
    (hI : g.default = some DefaultExpression.Inherit)
    (hf : fld.default ≠ some DefaultExpression.Inherit) :
    c.default.isSome := by
  rw [with_inherited_ok] at hg
  cases hg
  cases hc : c.default with
  | some u => simp [hc]
  | none =>
    simp [hc] at hI
    exact absurd hI hf

/-- C6: in the resolved output of `from_field`, a default of `Inherit` can
only have been assigned by the merge step, so it guarantees the supplied
container existed and had a default policy present; the field's own
`default` directive parsing never produces it. -/
theorem from_field_inherit_requires_container_default
    (f : SynField) (parent : Option Container) (fld : Field)
    (h : Field.from_field specFMI f parent = some (Except.ok fld))
    (hI : fld.default = some DefaultExpression.Inherit) :
    ∃ c, parent = some c ∧ c.default.isSome := by
  obtain ⟨oid, fty, fattrs⟩ := f
  cases oid with
  | none => simp [Field.from_field] at h
  | some tn =>
    simp only [Field.from_field, Option.some_inj] at h
    split at h
    · split at h
      · rename_i base hb pp c
        exact ⟨c, rfl, with_inherited_inherit_source base c fld h hI
          (parse_attributes_preserves_no_inherit fattrs _ _ hb (by simp [Field.new]))⟩
      · rename_i base hb pp
        cases h
        exact absurd hI
          (parse_attributes_preserves_no_inherit fattrs _ _ hb (by simp [Field.new]))
    · cases h

/-- Witness for C6: the scenario field `count` with no directives, merged
with a container whose default policy is present, resolves with
`default = Inherit`; the container's policy is indeed present. -/
theorem from_field_inherit_requires_container_default_witness :
    ∃ c, some (Container.mk (fun i => i.name) (some ())) = some c ∧ c.default.isSome :=
  from_field_inherit_requires_container_default
    ⟨some ⟨"count"⟩, ⟨"u32"⟩, []⟩
    (some (Container.mk (fun i => i.name) (some ())))
    (Field.mk ⟨"count"⟩ (some "count") ⟨"u32"⟩ (some DefaultExpression.Inherit) none false)
    rfl rfl

end Darling
